import Mathlib

/-!
Verification development for the dip-detection core of `src/server.py`
(`stock-ma`): the series extractor `_get_last_close_and_dma`, the dip
classifier and the batch orchestration in `get_dip`.

Numbers are modelled as rationals (`ℚ`); missing values (pandas `NaN`)
as `none : Option ℚ`.  A price frame is the `Close` sub-frame of the
fetched `DataFrame`: a list of parallel close columns (the provider may
return a nested/multi-column close), each column a list of per-row
optional values, together with the row count and whether a `Close`
column exists at all.
-/

namespace StockMA

/-- The fixed moving-average window of `close_df.rolling(window=200)`. -/
def window : Nat := 200

/-- The `Close` part of a fetched `DataFrame`.

* `hasClose` — whether `"Close" in data.columns`;
* `nrows` — number of rows of the frame (`data.empty` iff `nrows = 0`);
* `cols` — the close columns of `pd.DataFrame(close_col)`, each a list of
  `nrows` optional values (`none` = `NaN`). -/
structure PriceData where
  hasClose : Bool
  nrows : Nat
  cols : List (List (Option ℚ))
  deriving DecidableEq, Repr

/-- The `ValueError`s (and the tail `IndexError`) raised by
`_get_last_close_and_dma`. -/
inductive ExtractError where
  | noData
  | noClose
  | insufficientData
  deriving DecidableEq, Repr

/-- Row `i` of a column-major frame, in column order. -/
def rowAt (cols : List (List (Option ℚ))) (i : Nat) : List (Option ℚ) :=
  cols.map (fun c => c.getD i none)

/-- Whether row `i` has at least one non-missing cell: row `i` survives
`dropna(how="all")`. -/
def rowHasValue (cols : List (List (Option ℚ))) (i : Nat) : Bool :=
  (rowAt cols i).any Option.isSome

/-- Index of the last row that survives `dropna(how="all")`, i.e. the row
picked by `.dropna(how="all").iloc[-1]`; `none` when no row qualifies. -/
def lastValidIdx (cols : List (List (Option ℚ))) (n : Nat) : Option Nat :=
  ((List.range n).filter (fun i => rowHasValue cols i)).getLast?

/-- First non-missing value of row `i` in column order: the
`for v in row.values: if pd.notna(v): ... break` scan. -/
def firstSomeAt (cols : List (List (Option ℚ))) (i : Nat) : Option ℚ :=
  (rowAt cols i).findSome? id

/-- `col.rolling(window=w).mean()` for one column: position `i` carries the
mean of the `w` rows ending at `i` when all of them are present
(`min_periods` defaults to the window size, so any `NaN` in the window, or a
window that is not yet full, yields `NaN`). -/
def rollingMean (w : Nat) (col : List (Option ℚ)) : List (Option ℚ) :=
  (List.range col.length).map (fun i =>
    if w ≤ i + 1 then
      let win := (col.take (i + 1)).drop (i + 1 - w)
      if win.all Option.isSome then some ((win.filterMap id).sum / (w : ℚ))
      else none
    else none)

/-- The 200-day moving-average frame `dma = close_df.rolling(window=200).mean()`. -/
def dmaColsOf (d : PriceData) : List (List (Option ℚ)) :=
  d.cols.map (rollingMean window)

/-- `_get_last_close_and_dma` (src/server.py lines 53–101): reject a missing
or empty frame and a frame without a `Close` column, compute the 200-row
rolling mean, take the last not-entirely-missing row of the closes and of the
moving average, in each take the first non-missing value in column order, and
fail when either is unavailable. -/
def getLastCloseAndDma (od : Option PriceData) : Except ExtractError (ℚ × ℚ) :=
  match od with
  | none => .error .noData
  | some d =>
    if d.nrows = 0 then .error .noData
    else if d.hasClose = false then .error .noClose
    else
      match (lastValidIdx d.cols d.nrows).bind (firstSomeAt d.cols),
            (lastValidIdx (dmaColsOf d) d.nrows).bind (firstSomeAt (dmaColsOf d)) with
      | some c, some m => .ok (c, m)
      | _, _ => .error .insufficientData

/-- Total number of non-missing closing values in the frame. -/
def countSome (d : PriceData) : Nat :=
  (d.cols.map (fun c => (c.filter Option.isSome).length)).sum

/-! ### The dip classifier and the `/dip` orchestration (`get_dip`) -/

/-- The fixed capital amount (`amount = 100.0`). -/
def amount : ℚ := 100

/-- Tier-1 threshold (`dip_100 = 10.0`). -/
def dip_100 : ℚ := 10

/-- Tier-2 threshold (`dip_50 = 7.0`). -/
def dip_50 : ℚ := 7

/-- Tier-3 threshold (`dip_25 = 4.0`). -/
def dip_25 : ℚ := 4

/-- `dip = ((last_dma - last_close) / last_dma) * 100` (line 164). -/
def dipOf (c m : ℚ) : ℚ := (m - c) / m * 100

/-- The threshold ladder of lines 166–177: returns the action label and the
(unrounded) deploy amount. -/
def classifyAct (dip : ℚ) : String × ℚ :=
  if dip_100 ≤ dip then ("🟢 Deploy 100%", amount)
  else if dip_50 ≤ dip then ("🟡 Deploy 50%", (1/2) * amount)
  else if dip_25 ≤ dip then ("🟠 Deploy 25%", (1/4) * amount)
  else ("⚪ Hold", 0)

/-- One entry of the `results` list (lines 179–187). -/
structure DipRow where
  index : String
  ticker : String
  currentPrice : ℚ
  dma200 : ℚ
  dipPercent : ℚ
  action : String
  deploy : ℚ
  deriving DecidableEq, Repr

/-- Python's `round(x, 2)`: round `100·x` to the nearest integer, ties to
even, then divide back. -/
def roundHalfEven (x : ℚ) : ℤ :=
  if x - ⌊x⌋ < 1/2 then ⌊x⌋
  else if (1 : ℚ)/2 < x - ⌊x⌋ then ⌊x⌋ + 1
  else if ⌊x⌋ % 2 = 0 then ⌊x⌋ else ⌊x⌋ + 1

/-- Round to two decimal places, as in `round(v, 2)`. -/
def round2 (x : ℚ) : ℚ := ((roundHalfEven (x * 100) : ℤ) : ℚ) / 100

/-- The result row appended for one instrument (lines 164–187): the dip is
classified unrounded, the displayed numbers are rounded to 2 decimals. -/
def mkRow (name ticker : String) (c m : ℚ) : DipRow :=
  { index := name, ticker := ticker, currentPrice := round2 c,
    dma200 := round2 m, dipPercent := round2 (dipOf c m),
    action := (classifyAct (dipOf c m)).1,
    deploy := round2 ((classifyAct (dipOf c m)).2) }

/-- Outcome of `yf.download` for one ticker: `fail` models an exception,
`ok` the returned frame (or `None`). -/
inductive FetchResult where
  | fail
  | ok (d : Option PriceData)
  deriving DecidableEq, Repr

/-- What the loop body of `get_dip` does for one instrument: skip it, append
a row, or abort with `ZeroDivisionError` (the division on line 164 is not
guarded and not inside the `try`). -/
inductive StepRes where
  | skip
  | emit (r : DipRow)
  | raise
  deriving DecidableEq, Repr

/-- The fixed instrument table `index_options` (lines 43–50), in
configuration order. -/
def index_options : List (String × String) :=
  [("S&P 500", "^GSPC"),
   ("Nifty 50", "^NSEI"),
   ("Nifty Midcap 150", "0P0001IAU9.BO"),
   ("Nifty Smallcap 250", "0P0001Q0UH.BO"),
   ("NASDAQ", "^IXIC"),
   ("BTC", "BTC-USD")]

/-- One iteration of the `for name, ticker in index_options.items()` loop
(lines 147–187): a failed download, a `None`/empty frame, or a failed
extraction is skipped; otherwise the dip is computed — raising
`ZeroDivisionError` when `last_dma == 0` — and a row is emitted. -/
def stepOf (f : String → FetchResult) (p : String × String) : StepRes :=
  match f p.2 with
  | .fail => .skip
  | .ok none => .skip
  | .ok (some d) =>
    if d.nrows = 0 then .skip
    else
      match getLastCloseAndDma (some d) with
      | .error _ => .skip
      | .ok (c, m) => if m = 0 then .raise else .emit (mkRow p.1 p.2 c m)

/-- How `get_dip` can fail: an uncaught `ZeroDivisionError` escaping the
loop, or the `HTTPException(404, "No results available. ...")` raised when
`results` is empty. -/
inductive GetDipError where
  | zeroDivision
  | noResults
  deriving DecidableEq, Repr

/-- The instrument loop of `get_dip` followed by the empty-results check
(lines 147–191), with `acc` the `results` list built so far. -/
def getDipLoop (f : String → FetchResult) :
    List (String × String) → List DipRow → Except GetDipError (List DipRow)
  | [], acc => if acc = [] then .error .noResults else .ok acc
  | p :: rest, acc =>
    match stepOf f p with
    | .skip => getDipLoop f rest acc
    | .emit r => getDipLoop f rest (acc ++ [r])
    | .raise => .error .zeroDivision

/-- The `/dip` endpoint body `get_dip`, as a function of the fetch outcomes. -/
def getDip (f : String → FetchResult) : Except GetDipError (List DipRow) :=
  getDipLoop f index_options []

/-- The row an instrument contributes, if any. -/
def emittedOf : StepRes → Option DipRow
  | .emit r => some r
  | _ => none

/-! ### Specification-side predicates (for the implicit invariants) -/

/-- Row `i` is the last row of the frame, among the first `n`, in which at
least one value is non-missing. -/
def isLastNonMissingRow (cols : List (List (Option ℚ))) (n i : Nat) : Prop :=
  i < n ∧ rowHasValue cols i = true ∧
    ∀ k, i < k → k < n → rowHasValue cols k = false

/-- `c` is the first non-missing value of the row, in column order. -/
def firstNonMissingInRow (row : List (Option ℚ)) (c : ℚ) : Prop :=
  ∃ j, row.getD j none = some c ∧ ∀ k, k < j → row.getD k none = none

/-! ### Concrete frames used as test vectors -/

/-- 200 rows, every close equal to 1. -/
def onesVals : List ℚ := List.replicate 200 1

/-- A frame whose single close column is `onesVals`. -/
def data200ones : PriceData := ⟨true, onesVals.length, [onesVals.map some]⟩

/-- 200 rows, every close equal to 0. -/
def zerosVals : List ℚ := List.replicate 200 0

/-- A frame whose single close column is `zerosVals`: its 200-day moving
average is exactly 0. -/
def dataZeros : PriceData := ⟨true, zerosVals.length, [zerosVals.map some]⟩

/-- 199 rows at `19905/199` followed by a last close of 95: the trailing
200-mean is exactly 100, so the dip is 5%. -/
def vals25 : List ℚ := List.replicate 199 ((19905 : ℚ) / 199) ++ [95]

/-- A frame whose single close column is `vals25`. -/
def data25 : PriceData := ⟨true, vals25.length, [vals25.map some]⟩

/-- 201 rows with 200 non-missing closes but a `NaN` at row 199, so no
window of 200 consecutive rows is complete. -/
def gapVals : List (Option ℚ) := List.replicate 199 (some 0) ++ [none, some 1]

/-- The frame whose single close column is `gapVals`. -/
def dataGap : PriceData := ⟨true, gapVals.length, [gapVals]⟩

/-! ### Concrete fetch scenarios -/

/-- Every download fails (or returns nothing usable). -/
def fetchAllFail : String → FetchResult := fun _ => .fail

/-- Downloads for the Midcap and NASDAQ tickers fail; the other four return
the all-ones frame. -/
def fetch2of6 : String → FetchResult := fun t =>
  if t = "0P0001IAU9.BO" then .fail
  else if t = "^IXIC" then .fail
  else .ok (some data200ones)

/-- Only the S&P 500 ticker succeeds, with the all-ones frame. -/
def fetchOnes : String → FetchResult := fun t =>
  if t = "^GSPC" then .ok (some data200ones) else .fail

/-- Only the S&P 500 ticker succeeds, with the dip-5% frame. -/
def fetch25 : String → FetchResult := fun t =>
  if t = "^GSPC" then .ok (some data25) else .fail

/-- Only the S&P 500 ticker succeeds, with the all-zeros frame. -/
def fetchZeros : String → FetchResult := fun t =>
  if t = "^GSPC" then .ok (some dataZeros) else .fail

/-- The S&P 500 ticker returns the all-ones frame, the Nifty 50 ticker the
all-zeros frame, the rest fail. -/
def fetchC4 : String → FetchResult := fun t =>
  if t = "^GSPC" then .ok (some data200ones)
  else if t = "^NSEI" then .ok (some dataZeros)
  else .fail

/-! ### Helper lemmas about the extractor's scans -/

lemma lastValidIdx_spec {cols : List (List (Option ℚ))} {n i : Nat}
    (h : lastValidIdx cols n = some i) :
    i < n ∧ rowHasValue cols i = true ∧
      ∀ k, i < k → k < n → rowHasValue cols k = false := by
  induction n with
  | zero => simp [lastValidIdx] at h
  | succ nn ih =>
    rw [lastValidIdx, List.range_succ, List.filter_append] at h
    by_cases hv : rowHasValue cols nn = true
    · simp only [List.filter_cons, List.filter_nil, hv, if_true] at h
      rw [List.getLast?_concat] at h
      injection h with h
      subst h
      exact ⟨Nat.lt_succ_self _, hv, fun k hk1 hk2 => by omega⟩
    · simp only [List.filter_cons, List.filter_nil, hv, Bool.false_eq_true,
        if_false, List.append_nil] at h
      obtain ⟨h1, h2, h3⟩ := ih h
      refine ⟨by omega, h2, fun k hk1 hk2 => ?_⟩
      rcases Nat.lt_or_ge k nn with hk | hk
      · exact h3 k hk1 hk
      · have hkn : k = nn := by omega
        subst hkn
        simpa using hv

lemma lastValidIdx_of_last {cols : List (List (Option ℚ))} {n : Nat}
    (hn : n ≠ 0) (hv : rowHasValue cols (n - 1) = true) :
    lastValidIdx cols n = some (n - 1) := by
  obtain ⟨k, rfl⟩ : ∃ k, n = k + 1 := ⟨n - 1, by omega⟩
  simp only [Nat.add_sub_cancel] at hv
  rw [lastValidIdx, List.range_succ, List.filter_append]
  simp only [List.filter_cons, List.filter_nil, hv, if_true, Nat.add_sub_cancel]
  exact List.getLast?_concat _

lemma lastValidIdx_eq_none {cols : List (List (Option ℚ))} {n : Nat}
    (h : ∀ i, i < n → rowHasValue cols i = false) :
    lastValidIdx cols n = none := by
  rw [lastValidIdx]
  have : (List.range n).filter (fun i => rowHasValue cols i) = [] := by
    rw [List.filter_eq_nil_iff]
    intro a ha
    simp [h a (List.mem_range.mp ha)]
  simp [this]

lemma findSome?_id_eq_some {l : List (Option ℚ)} {c : ℚ}
    (h : l.findSome? id = some c) :
    ∃ j, l.getD j none = some c ∧ ∀ k, k < j → l.getD k none = none := by
  induction l with
  | nil => simp [List.findSome?] at h
  | cons a t ih =>
    match a with
    | some v =>
      rw [List.findSome?_cons] at h
      simp only [id] at h
      injection h with h
      subst h
      exact ⟨0, by simp, fun k hk => absurd hk (by omega)⟩
    | none =>
      rw [List.findSome?_cons] at h
      simp only [id] at h
      obtain ⟨j, hj, hk⟩ := ih h
      refine ⟨j + 1, by simpa using hj, fun k hk2 => ?_⟩
      match k with
      | 0 => simp
      | k + 1 => simpa using hk k (by omega)

lemma rollingMean_getD {w : Nat} {col : List (Option ℚ)} {i : Nat}
    (hi : i < col.length) :
    (rollingMean w col).getD i none =
      (if w ≤ i + 1 then
        (let win := (col.take (i + 1)).drop (i + 1 - w)
         if win.all Option.isSome then some ((win.filterMap id).sum / (w : ℚ))
         else none)
       else none) := by
  rw [rollingMean, List.getD_eq_getElem?_getD, List.getElem?_map,
    List.getElem?_range hi]
  rfl

lemma rollingMean_length {w : Nat} {col : List (Option ℚ)} :
    (rollingMean w col).length = col.length := by
  simp [rollingMean]

lemma rollingMean_getD_ge {w : Nat} {col : List (Option ℚ)} {i : Nat}
    (hi : col.length ≤ i) :
    (rollingMean w col).getD i none = none := by
  rw [List.getD_eq_getElem?_getD, List.getElem?_eq_none (by rwa [rollingMean_length])]
  rfl

lemma rollingMean_getD_small {w : Nat} {col : List (Option ℚ)} {i : Nat}
    (hi : i < col.length) (hw : ¬ w ≤ i + 1) :
    (rollingMean w col).getD i none = none := by
  rw [rollingMean_getD hi, if_neg hw]

lemma rollingMean_getD_full {w : Nat} {col : List (Option ℚ)} {i : Nat}
    (hi : i < col.length) (hw : w ≤ i + 1)
    (hall : ((col.take (i + 1)).drop (i + 1 - w)).all Option.isSome = true) :
    (rollingMean w col).getD i none =
      some ((((col.take (i + 1)).drop (i + 1 - w)).filterMap id).sum / (w : ℚ)) := by
  rw [rollingMean_getD hi, if_pos hw]
  simp only [hall, if_true]

lemma rollingMean_getD_gap {w : Nat} {col : List (Option ℚ)} {i g : Nat}
    (hi : i < col.length) (hw : w ≤ i + 1)
    (hg1 : i + 1 - w ≤ g) (hg2 : g ≤ i) (hgap : col.getD g none = none) :
    (rollingMean w col).getD i none = none := by
  rw [rollingMean_getD hi, if_pos hw]
  have hnone : (none : Option ℚ) ∈ (col.take (i + 1)).drop (i + 1 - w) := by
    have hcell : ((col.take (i + 1)).drop (i + 1 - w))[g - (i + 1 - w)]? =
        some (none : Option ℚ) := by
      rw [List.getElem?_drop, List.getElem?_take]
      have hlt : i + 1 - w + (g - (i + 1 - w)) = g := by omega
      rw [hlt, if_pos (by omega), List.getElem?_eq_getElem (by omega)]
      rw [List.getD_eq_getElem?_getD, List.getElem?_eq_getElem (by omega)] at hgap
      simpa using hgap
    exact List.getElem?_mem hcell
  have hall : ¬ ((col.take (i + 1)).drop (i + 1 - w)).all Option.isSome = true := by
    intro hall
    have := List.all_eq_true.mp hall _ hnone
    simp at this
  simp only [hall, if_false]
  rfl

lemma rollingMean_getD_some {w : Nat} {col : List (Option ℚ)} {i : Nat} {m : ℚ}
    (h : (rollingMean w col).getD i none = some m) :
    w ≤ (col.filter Option.isSome).length := by
  by_cases hi : i < col.length
  · rw [rollingMean_getD hi] at h
    by_cases hw : w ≤ i + 1
    · rw [if_pos hw] at h
      by_cases hall : ((col.take (i + 1)).drop (i + 1 - w)).all Option.isSome = true
      · have hsub : ((col.take (i + 1)).drop (i + 1 - w)).Sublist col :=
          (List.drop_sublist _ _).trans (List.take_sublist _ _)
        have hle := (hsub.filter Option.isSome).length_le
        rw [List.filter_eq_self.mpr (List.all_eq_true.mp hall)] at hle
        have hlen : ((col.take (i + 1)).drop (i + 1 - w)).length = w := by
          rw [List.length_drop, List.length_take]
          omega
        omega
      · simp only [hall, if_false] at h
        exact absurd h (by simp)
    · rw [if_neg hw] at h
      exact absurd h (by simp)
  · rw [rollingMean_getD_ge (by omega)] at h
    exact absurd h (by simp)

lemma getD_rowAt_some {cols : List (List (Option ℚ))} {i j : Nat} {m : ℚ}
    (h : (rowAt cols i).getD j none = some m) :
    ∃ c ∈ cols, c.getD i none = some m := by
  have hlen : j < cols.length := by
    by_contra hge
    rw [List.getD_eq_getElem?_getD,
      List.getElem?_eq_none (by simpa [rowAt] using Nat.le_of_not_lt hge)] at h
    simp at h
  rw [rowAt, List.getD_eq_getElem?_getD, List.getElem?_map,
    List.getElem?_eq_getElem hlen] at h
  simp only [Option.map_some', Option.getD_some] at h
  exact ⟨cols[j], List.getElem_mem hlen, h⟩

lemma countSome_of_dma_cell {d : PriceData} {i : Nat} {m : ℚ}
    (h : firstSomeAt (dmaColsOf d) i = some m) :
    window ≤ countSome d := by
  obtain ⟨j, hj, -⟩ := findSome?_id_eq_some h
  obtain ⟨c, hc, hcell⟩ := getD_rowAt_some hj
  rw [dmaColsOf, List.mem_map] at hc
  obtain ⟨c0, hc0, rfl⟩ := hc
  have hw := rollingMean_getD_some hcell
  calc window ≤ (c0.filter Option.isSome).length := hw
    _ ≤ countSome d :=
      List.single_le_sum (fun x _ => Nat.zero_le x) _
        (List.mem_map_of_mem _ hc0)

lemma rowHasValue_single {col : List (Option ℚ)} {i : Nat} :
    rowHasValue [col] i = (col.getD i none).isSome := by
  simp [rowHasValue, rowAt]

lemma firstSomeAt_single {col : List (Option ℚ)} {i : Nat} :
    firstSomeAt [col] i = col.getD i none := by
  rw [firstSomeAt, rowAt]
  simp only [List.map_cons, List.map_nil, List.findSome?_cons]
  cases col.getD i none <;> simp

lemma getD_map_some_lt {vals : List ℚ} {i : Nat} (hi : i < vals.length) :
    (vals.map some).getD i none = some (vals.getD i 0) := by
  rw [List.getD_eq_getElem?_getD, List.getElem?_map, List.getElem?_eq_getElem hi,
    List.getD_eq_getElem?_getD, List.getElem?_eq_getElem hi]
  rfl

/-- Extraction on a single all-non-missing close column of length `≥ 200`:
it succeeds, the last close is the final value, and the moving average is the
mean of the final 200 values (the window ending at the same last position). -/
lemma extract_allSome (vals : List ℚ) (h : window ≤ vals.length) :
    getLastCloseAndDma (some ⟨true, vals.length, [vals.map some]⟩) =
      .ok (vals.getD (vals.length - 1) 0,
           (vals.drop (vals.length - window)).sum / (window : ℚ)) := by
  have hwpos : 0 < window := by norm_num [window]
  have hn : vals.length ≠ 0 := by omega
  have hcl : (vals.map some).length = vals.length := List.length_map _ _
  have hlast : vals.length - 1 < vals.length := by omega
  -- the close side
  have hrowlast : rowHasValue [vals.map some] (vals.length - 1) = true := by
    rw [rowHasValue_single, getD_map_some_lt hlast]
    rfl
  have hcloseIdx : lastValidIdx [vals.map some] vals.length = some (vals.length - 1) :=
    lastValidIdx_of_last hn hrowlast
  have hcloseVal : firstSomeAt [vals.map some] (vals.length - 1) =
      some (vals.getD (vals.length - 1) 0) := by
    rw [firstSomeAt_single, getD_map_some_lt hlast]
  -- the moving-average side
  have hsucc : vals.length - 1 + 1 = vals.length := by omega
  have htake : (vals.map some).take (vals.length - 1 + 1) = vals.map some := by
    rw [hsucc, ← hcl, List.take_length]
  have hwin : ((vals.map some).take (vals.length - 1 + 1)).drop
      (vals.length - 1 + 1 - window) = (vals.drop (vals.length - window)).map some := by
    rw [htake, hsucc, List.map_drop]
  have hallwin : ((vals.drop (vals.length - window)).map some).all Option.isSome = true := by
    rw [List.all_eq_true]
    intro x hx
    obtain ⟨a, -, rfl⟩ := List.mem_map.mp hx
    rfl
  have hdmaCell : (rollingMean window (vals.map some)).getD (vals.length - 1) none =
      some ((vals.drop (vals.length - window)).sum / (window : ℚ)) := by
    rw [rollingMean_getD_full (by omega) (by omega) (by rw [hwin]; exact hallwin)]
    rw [hwin, List.filterMap_map]
    simp [Function.comp]
  have hdmaRow : rowHasValue [rollingMean window (vals.map some)]
      (vals.length - 1) = true := by
    rw [rowHasValue_single, hdmaCell]
    rfl
  have hdmaIdx : lastValidIdx [rollingMean window (vals.map some)] vals.length =
      some (vals.length - 1) := lastValidIdx_of_last hn hdmaRow
  have hdmaVal : firstSomeAt [rollingMean window (vals.map some)]
      (vals.length - 1) = some ((vals.drop (vals.length - window)).sum / (window : ℚ)) := by
    rw [firstSomeAt_single, hdmaCell]
  -- assemble
  rw [getLastCloseAndDma]
  simp only [hn, if_false, dmaColsOf, List.map_cons, List.map_nil]
  rw [hcloseIdx, hdmaIdx, Option.some_bind, Option.some_bind, hcloseVal, hdmaVal]
  simp

lemma window_eq : window = 200 := rfl

lemma onesVals_length : onesVals.length = 200 := by
  rw [onesVals, List.length_replicate]

lemma zerosVals_length : zerosVals.length = 200 := by
  rw [zerosVals, List.length_replicate]

lemma vals25_length : vals25.length = 200 := by
  rw [vals25, List.length_append, List.length_replicate]
  rfl

lemma gapVals_length : gapVals.length = 201 := by
  rw [gapVals, List.length_append, List.length_replicate]
  rfl

lemma extract_ones : getLastCloseAndDma (some data200ones) = .ok (1, 1) := by
  show getLastCloseAndDma (some ⟨true, onesVals.length, [onesVals.map some]⟩) = _
  rw [extract_allSome onesVals (by rw [onesVals_length, window_eq])]
  have h1 : onesVals.getD (onesVals.length - 1) 0 = 1 := by
    rw [onesVals_length, List.getD_eq_getElem?_getD, onesVals,
      List.getElem?_replicate, if_pos (by norm_num)]
    rfl
  have h2 : onesVals.drop (onesVals.length - window) = onesVals := by
    rw [onesVals_length, window_eq, Nat.sub_self, List.drop_zero]
  have h3 : onesVals.sum = 200 := by
    rw [onesVals, List.sum_replicate, nsmul_eq_mul]
    norm_num
  rw [h1, h2, h3, window_eq]
  norm_num

lemma extract_zeros : getLastCloseAndDma (some dataZeros) = .ok (0, 0) := by
  show getLastCloseAndDma (some ⟨true, zerosVals.length, [zerosVals.map some]⟩) = _
  rw [extract_allSome zerosVals (by rw [zerosVals_length, window_eq])]
  have h1 : zerosVals.getD (zerosVals.length - 1) 0 = 0 := by
    rw [zerosVals_length, List.getD_eq_getElem?_getD, zerosVals,
      List.getElem?_replicate, if_pos (by norm_num)]
    rfl
  have h2 : zerosVals.drop (zerosVals.length - window) = zerosVals := by
    rw [zerosVals_length, window_eq, Nat.sub_self, List.drop_zero]
  have h3 : zerosVals.sum = 0 := by
    rw [zerosVals, List.sum_replicate, nsmul_eq_mul]
    norm_num
  rw [h1, h2, h3, window_eq]
  norm_num

lemma extract_25 : getLastCloseAndDma (some data25) = .ok (95, 100) := by
  show getLastCloseAndDma (some ⟨true, vals25.length, [vals25.map some]⟩) = _
  rw [extract_allSome vals25 (by rw [vals25_length, window_eq])]
  have hgetD : vals25.getD (vals25.length - 1) 0 = 95 := by
    rw [vals25_length, List.getD_eq_getElem?_getD, vals25,
      List.getElem?_append_right (by rw [List.length_replicate]),
      List.length_replicate]
    rfl
  have hdrop : vals25.drop (vals25.length - window) = vals25 := by
    rw [vals25_length, window_eq, Nat.sub_self, List.drop_zero]
  have hsum : vals25.sum = 20000 := by
    rw [vals25, List.sum_append, List.sum_replicate, nsmul_eq_mul]
    norm_num
  rw [hgetD, hdrop, hsum, window_eq]
  norm_num

lemma extract_gap : getLastCloseAndDma (some dataGap) = .error .insufficientData := by
  have hgap : gapVals.getD 199 none = none := by
    rw [List.getD_eq_getElem?_getD, gapVals,
      List.getElem?_append_right (by rw [List.length_replicate]),
      List.length_replicate]
    rfl
  have hlen : gapVals.length = 201 := gapVals_length
  have hcell : ∀ i, i < 201 → (rollingMean window gapVals).getD i none = none := by
    intro i hi
    by_cases hw : window ≤ i + 1
    · have hw200 : 200 ≤ i + 1 := by rw [window_eq] at hw; exact hw
      exact rollingMean_getD_gap (by omega) hw
        (by rw [window_eq]; omega) (by omega) hgap
    · exact rollingMean_getD_small (by omega) hw
  have hdmacols : dmaColsOf dataGap = [rollingMean window gapVals] := by
    rw [dmaColsOf]
    show ([gapVals].map _) = _
    rw [List.map_cons, List.map_nil]
  have hnrows : dataGap.nrows = 201 := by
    show gapVals.length = 201
    exact hlen
  have hnone : lastValidIdx (dmaColsOf dataGap) dataGap.nrows = none := by
    apply lastValidIdx_eq_none
    intro i hi
    rw [hnrows] at hi
    rw [hdmacols, rowHasValue_single, hcell i hi]
    rfl
  rw [getLastCloseAndDma]
  rw [if_neg (by rw [hnrows]; omega),
    if_neg (by rw [show dataGap.hasClose = true from rfl]; simp)]
  rw [hnone, Option.none_bind]
  cases (lastValidIdx dataGap.cols dataGap.nrows).bind (firstSomeAt dataGap.cols) <;> rfl

lemma countSome_gap : countSome dataGap = 200 := by
  show ([gapVals].map (fun c => (c.filter Option.isSome).length)).sum = 200
  rw [List.map_cons, List.map_nil, List.sum_cons, List.sum_nil]
  rw [gapVals, List.filter_append, List.filter_replicate, List.length_append]
  simp only [Option.isSome_some, eq_self_iff_true, if_true, List.length_replicate]
  rfl

/-! ### Classifier computations -/

lemma roundHalfEven_intCast (z : ℤ) : roundHalfEven (z : ℚ) = z := by
  rw [roundHalfEven, Int.floor_intCast, if_pos (by rw [sub_self]; norm_num)]

lemma round2_intCast (z : ℤ) : round2 (z : ℚ) = z := by
  rw [round2]
  rw [show (z : ℚ) * 100 = ((z * 100 : ℤ) : ℚ) by push_cast; ring,
    roundHalfEven_intCast]
  push_cast
  field_simp

lemma classifyAct_tier1 {q : ℚ} (h : 10 ≤ q) :
    classifyAct q = ("🟢 Deploy 100%", 100) := by
  rw [classifyAct, if_pos (show dip_100 ≤ q by rw [dip_100]; exact h), amount]

lemma classifyAct_tier2 {q : ℚ} (h7 : 7 ≤ q) (h10 : q < 10) :
    classifyAct q = ("🟡 Deploy 50%", 50) := by
  rw [classifyAct, if_neg (show ¬ dip_100 ≤ q by rw [dip_100]; linarith),
    if_pos (show dip_50 ≤ q by rw [dip_50]; exact h7), amount]
  norm_num

lemma classifyAct_tier3 {q : ℚ} (h4 : 4 ≤ q) (h7 : q < 7) :
    classifyAct q = ("🟠 Deploy 25%", 25) := by
  rw [classifyAct, if_neg (show ¬ dip_100 ≤ q by rw [dip_100]; linarith),
    if_neg (show ¬ dip_50 ≤ q by rw [dip_50]; linarith),
    if_pos (show dip_25 ≤ q by rw [dip_25]; exact h4), amount]
  norm_num

lemma classifyAct_hold {q : ℚ} (h : q < 4) :
    classifyAct q = ("⚪ Hold", 0) := by
  rw [classifyAct, if_neg (show ¬ dip_100 ≤ q by rw [dip_100]; linarith),
    if_neg (show ¬ dip_50 ≤ q by rw [dip_50]; linarith),
    if_neg (show ¬ dip_25 ≤ q by rw [dip_25]; linarith)]

lemma mkRow_ones (name ticker : String) :
    mkRow name ticker 1 1 = ⟨name, ticker, 1, 1, 0, "⚪ Hold", 0⟩ := by
  have hdip : dipOf 1 1 = 0 := by rw [dipOf]; norm_num
  rw [mkRow, hdip, classifyAct_hold (by norm_num)]
  rw [show round2 1 = 1 by simpa using round2_intCast 1,
    show round2 0 = 0 by simpa using round2_intCast 0]

lemma mkRow_25 (name ticker : String) :
    mkRow name ticker 95 100 = ⟨name, ticker, 95, 100, 5, "🟠 Deploy 25%", 25⟩ := by
  have hdip : dipOf 95 100 = 5 := by rw [dipOf]; norm_num
  rw [mkRow, hdip, classifyAct_tier3 (by norm_num) (by norm_num)]
  rw [show round2 95 = 95 by simpa using round2_intCast 95,
    show round2 100 = 100 by simpa using round2_intCast 100,
    show round2 5 = 5 by simpa using round2_intCast 5,
    show round2 25 = 25 by simpa using round2_intCast 25]

/-! ### Per-instrument step lemmas and the loop -/

lemma stepOf_fail {f : String → FetchResult} {p : String × String}
    (hf : f p.2 = .fail) : stepOf f p = .skip := by
  rw [stepOf, hf]

lemma stepOf_ok_none {f : String → FetchResult} {p : String × String}
    (hf : f p.2 = .ok none) : stepOf f p = .skip := by
  rw [stepOf, hf]

lemma stepOf_emit {f : String → FetchResult} {p : String × String}
    {d : PriceData} {c m : ℚ} (hf : f p.2 = .ok (some d)) (hn : ¬ d.nrows = 0)
    (hex : getLastCloseAndDma (some d) = .ok (c, m)) (hm : ¬ m = 0) :
    stepOf f p = .emit (mkRow p.1 p.2 c m) := by
  rw [stepOf, hf]
  simp only [hex, if_neg hn, if_neg hm]

lemma stepOf_raise {f : String → FetchResult} {p : String × String}
    {d : PriceData} {c : ℚ} (hf : f p.2 = .ok (some d)) (hn : ¬ d.nrows = 0)
    (hex : getLastCloseAndDma (some d) = .ok (c, 0)) :
    stepOf f p = .raise := by
  rw [stepOf, hf]
  simp only [hex, if_neg hn]
  rw [if_pos trivial]

lemma stepOf_extract_error {f : String → FetchResult} {p : String × String}
    {d : PriceData} {e : ExtractError} (hf : f p.2 = .ok (some d))
    (hn : ¬ d.nrows = 0) (hex : getLastCloseAndDma (some d) = .error e) :
    stepOf f p = .skip := by
  rw [stepOf, hf]
  simp only [hex, if_neg hn]

/-- The loop is exactly "filter the emitted rows, in configuration order,
then 404 on empty", provided no instrument raises `ZeroDivisionError`. -/
lemma getDipLoop_eq (f : String → FetchResult) (l : List (String × String)) :
    ∀ acc : List DipRow, (∀ p ∈ l, stepOf f p ≠ .raise) →
      getDipLoop f l acc =
        (if acc ++ l.filterMap (fun p => emittedOf (stepOf f p)) = []
         then .error .noResults
         else .ok (acc ++ l.filterMap (fun p => emittedOf (stepOf f p)))) := by
  induction l with
  | nil =>
    intro acc H
    rw [getDipLoop]
    simp
  | cons p rest ih =>
    intro acc H
    rw [getDipLoop]
    cases hs : stepOf f p with
    | skip =>
      rw [ih acc (fun q hq => H q (List.mem_cons_of_mem _ hq))]
      rw [List.filterMap_cons, hs]
      rfl
    | emit r =>
      show getDipLoop f rest (acc ++ [r]) = _
      rw [ih (acc ++ [r]) (fun q hq => H q (List.mem_cons_of_mem _ hq))]
      rw [List.filterMap_cons, hs]
      simp only [emittedOf, List.append_assoc, List.singleton_append]
    | raise => exact absurd hs (H p (List.mem_cons_self _ _))

lemma data200ones_nrows : ¬ data200ones.nrows = 0 := by
  show ¬ onesVals.length = 0
  rw [onesVals_length]
  omega

lemma dataZeros_nrows : ¬ dataZeros.nrows = 0 := by
  show ¬ zerosVals.length = 0
  rw [zerosVals_length]
  omega

lemma data25_nrows : ¬ data25.nrows = 0 := by
  show ¬ vals25.length = 0
  rw [vals25_length]
  omega

lemma step2of6_sp : stepOf fetch2of6 ("S&P 500", "^GSPC") =
    .emit (mkRow "S&P 500" "^GSPC" 1 1) :=
  stepOf_emit rfl data200ones_nrows extract_ones (by norm_num)

lemma step2of6_nifty : stepOf fetch2of6 ("Nifty 50", "^NSEI") =
    .emit (mkRow "Nifty 50" "^NSEI" 1 1) :=
  stepOf_emit rfl data200ones_nrows extract_ones (by norm_num)

lemma step2of6_mid : stepOf fetch2of6 ("Nifty Midcap 150", "0P0001IAU9.BO") = .skip :=
  stepOf_fail rfl

lemma step2of6_small : stepOf fetch2of6 ("Nifty Smallcap 250", "0P0001Q0UH.BO") =
    .emit (mkRow "Nifty Smallcap 250" "0P0001Q0UH.BO" 1 1) :=
  stepOf_emit rfl data200ones_nrows extract_ones (by norm_num)

lemma step2of6_nasdaq : stepOf fetch2of6 ("NASDAQ", "^IXIC") = .skip :=
  stepOf_fail rfl

lemma step2of6_btc : stepOf fetch2of6 ("BTC", "BTC-USD") =
    .emit (mkRow "BTC" "BTC-USD" 1 1) :=
  stepOf_emit rfl data200ones_nrows extract_ones (by norm_num)

lemma steps2of6_noRaise : ∀ p ∈ index_options, stepOf fetch2of6 p ≠ .raise := by
  intro p hp
  rw [index_options] at hp
  simp only [List.mem_cons, List.not_mem_nil, or_false] at hp
  rcases hp with rfl | rfl | rfl | rfl | rfl | rfl
  · rw [step2of6_sp]; intro h; cases h
  · rw [step2of6_nifty]; intro h; cases h
  · rw [step2of6_mid]; intro h; cases h
  · rw [step2of6_small]; intro h; cases h
  · rw [step2of6_nasdaq]; intro h; cases h
  · rw [step2of6_btc]; intro h; cases h

lemma stepOnes_sp : stepOf fetchOnes ("S&P 500", "^GSPC") =
    .emit (mkRow "S&P 500" "^GSPC" 1 1) :=
  stepOf_emit rfl data200ones_nrows extract_ones (by norm_num)

lemma step25_sp : stepOf fetch25 ("S&P 500", "^GSPC") =
    .emit (mkRow "S&P 500" "^GSPC" 95 100) :=
  stepOf_emit rfl data25_nrows extract_25 (by norm_num)

lemma stepZeros_sp : stepOf fetchZeros ("S&P 500", "^GSPC") = .raise :=
  stepOf_raise rfl dataZeros_nrows extract_zeros

lemma stepC4_sp : stepOf fetchC4 ("S&P 500", "^GSPC") =
    .emit (mkRow "S&P 500" "^GSPC" 1 1) :=
  stepOf_emit rfl data200ones_nrows extract_ones (by norm_num)

lemma stepC4_nifty : stepOf fetchC4 ("Nifty 50", "^NSEI") = .raise :=
  stepOf_raise rfl dataZeros_nrows extract_zeros

lemma getDip_C4 : getDip fetchC4 = .error .zeroDivision := by
  rw [getDip, index_options, getDipLoop, stepC4_sp]
  show getDipLoop fetchC4 _ _ = _
  rw [getDipLoop, stepC4_nifty]

lemma getDip_zeros : getDip fetchZeros = .error .zeroDivision := by
  rw [getDip, index_options, getDipLoop, stepZeros_sp]

lemma stepOf_raise_inv {f : String → FetchResult} {p : String × String}
    (h : stepOf f p = .raise) :
    ∃ d c, f p.2 = .ok (some d) ∧ ¬ d.nrows = 0 ∧
      getLastCloseAndDma (some d) = .ok (c, 0) := by
  rw [stepOf] at h
  cases hf : f p.2 with
  | fail => rw [hf] at h; cases h
  | ok od =>
    cases od with
    | none => rw [hf] at h; cases h
    | some d =>
      rw [hf] at h
      by_cases h0 : d.nrows = 0
      · simp only [if_pos h0] at h
        cases h
      · simp only [if_neg h0] at h
        cases hex : getLastCloseAndDma (some d) with
        | error e => rw [hex] at h; cases h
        | ok cm =>
          obtain ⟨c, m⟩ := cm
          rw [hex] at h
          by_cases hm : m = 0
          · subst hm
            exact ⟨d, c, rfl, h0, hex⟩
          · simp only [if_neg hm] at h
            cases h

lemma stepOf_emit_inv {f : String → FetchResult} {p : String × String} {r : DipRow}
    (h : stepOf f p = .emit r) :
    ∃ d c m, f p.2 = .ok (some d) ∧ ¬ d.nrows = 0 ∧
      getLastCloseAndDma (some d) = .ok (c, m) ∧ ¬ m = 0 ∧
      r = mkRow p.1 p.2 c m := by
  rw [stepOf] at h
  cases hf : f p.2 with
  | fail => rw [hf] at h; cases h
  | ok od =>
    cases od with
    | none => rw [hf] at h; cases h
    | some d =>
      rw [hf] at h
      by_cases h0 : d.nrows = 0
      · simp only [if_pos h0] at h
        cases h
      · simp only [if_neg h0] at h
        cases hex : getLastCloseAndDma (some d) with
        | error e => rw [hex] at h; cases h
        | ok cm =>
          obtain ⟨c, m⟩ := cm
          rw [hex] at h
          by_cases hm : m = 0
          · simp only [if_pos hm] at h
            cases h
          · simp only [if_neg hm] at h
            injection h with h
            exact ⟨d, c, m, rfl, h0, hex, hm, h.symm⟩

lemma classifyAct_mono {a b : ℚ} (hab : a ≤ b) :
    (classifyAct a).2 ≤ (classifyAct b).2 := by
  rw [classifyAct, classifyAct, dip_100, dip_50, dip_25, amount]
  split_ifs <;> norm_num <;> linarith

/-! ### The claims -/

/-- C1, counterexample: the claim "for every price series containing at
least 200 non-missing closing values, extraction succeeds and the returned
`lastMovingAverage` equals the arithmetic mean of the trailing 200
non-missing closes ending at the same position as the returned `lastClose`"
is false: `dataGap` has exactly 200 non-missing closes, yet
`_get_last_close_and_dma` raises (the rolling mean needs 200 *consecutive*
non-missing rows, and the `NaN` at row 199 leaves every full window
incomplete). -/
theorem C1_counterexample :
    countSome dataGap = 200 ∧
    getLastCloseAndDma (some dataGap) = .error .insufficientData :=
  ⟨countSome_gap, extract_gap⟩

/-- C1 (amended): for every single-column price series with at least 200
rows whose closes are all non-missing, extraction succeeds, `lastClose` is
the final close, and `lastMovingAverage` is the arithmetic mean of the 200
closes ending at that same final position. -/
theorem C1_theorem (vals : List ℚ) (h : window ≤ vals.length) :
    getLastCloseAndDma (some ⟨true, vals.length, [vals.map some]⟩) =
      .ok (vals.getD (vals.length - 1) 0,
           (vals.drop (vals.length - window)).sum / (window : ℚ)) ∧
    (vals.drop (vals.length - window)).length = window :=
  ⟨extract_allSome vals h, by rw [List.length_drop]; omega⟩

/-- C1 witness: the amended claim at the concrete 200-row all-ones frame. -/
theorem C1_witness :
    window ≤ onesVals.length ∧
    (getLastCloseAndDma (some ⟨true, onesVals.length, [onesVals.map some]⟩) =
      .ok (onesVals.getD (onesVals.length - 1) 0,
           (onesVals.drop (onesVals.length - window)).sum / (window : ℚ)) ∧
     (onesVals.drop (onesVals.length - window)).length = window) :=
  ⟨by rw [onesVals_length]; norm_num [window_eq],
   C1_theorem onesVals (by rw [onesVals_length]; norm_num [window_eq])⟩

/-- C2: extraction fails (raises) whenever the frame is missing or empty,
has no `Close` column, or has fewer than 200 non-missing closing values. -/
theorem C2_theorem (od : Option PriceData)
    (h : od = none ∨ ∃ d, od = some d ∧
      (d.nrows = 0 ∨ d.hasClose = false ∨ countSome d < window)) :
    ∃ e, getLastCloseAndDma od = .error e := by
  rcases h with rfl | ⟨d, rfl, hd⟩
  · exact ⟨.noData, rfl⟩
  · by_cases h0 : d.nrows = 0
    · exact ⟨.noData, by rw [getLastCloseAndDma, if_pos h0]⟩
    · by_cases hc : d.hasClose = false
      · exact ⟨.noClose, by rw [getLastCloseAndDma, if_neg h0, if_pos hc]⟩
      · have hcnt : countSome d < window := by
          rcases hd with h | h | h
          · exact absurd h h0
          · exact absurd h hc
          · exact h
        have hnone : (lastValidIdx (dmaColsOf d) d.nrows).bind
            (firstSomeAt (dmaColsOf d)) = none := by
          cases hb : (lastValidIdx (dmaColsOf d) d.nrows).bind
              (firstSomeAt (dmaColsOf d)) with
          | none => rfl
          | some m =>
            obtain ⟨i, -, hfs⟩ := Option.bind_eq_some.mp hb
            exact absurd (countSome_of_dma_cell hfs) (by omega)
        refine ⟨.insufficientData, ?_⟩
        rw [getLastCloseAndDma, if_neg h0, if_neg hc, hnone]
        cases (lastValidIdx d.cols d.nrows).bind (firstSomeAt d.cols) <;> rfl

/-- C2 witness: the missing-frame case (`yf.download` returned `None`). -/
theorem C2_witness :
    ((none : Option PriceData) = none ∨ ∃ d, (none : Option PriceData) = some d ∧
      (d.nrows = 0 ∨ d.hasClose = false ∨ countSome d < window)) ∧
    ∃ e, getLastCloseAndDma (none : Option PriceData) = .error e :=
  ⟨Or.inl rfl, C2_theorem none (Or.inl rfl)⟩

/-- C3: the tier ladder is descending with closed-above boundaries: the
first threshold satisfied by `dipPercent >= threshold`, checked from highest
to lowest, wins; a dip of exactly 10 selects tier 1 (100%), and 9.999
selects tier 2 (50%). -/
theorem C3_theorem :
    (∀ q : ℚ, 10 ≤ q → classifyAct q = ("🟢 Deploy 100%", 100)) ∧
    (∀ q : ℚ, 7 ≤ q → q < 10 → classifyAct q = ("🟡 Deploy 50%", 50)) ∧
    (∀ q : ℚ, 4 ≤ q → q < 7 → classifyAct q = ("🟠 Deploy 25%", 25)) ∧
    (∀ q : ℚ, q < 4 → classifyAct q = ("⚪ Hold", 0)) ∧
    classifyAct 10 = ("🟢 Deploy 100%", 100) ∧
    classifyAct (9999 / 1000) = ("🟡 Deploy 50%", 50) :=
  ⟨fun _ h => classifyAct_tier1 h,
   fun _ h1 h2 => classifyAct_tier2 h1 h2,
   fun _ h1 h2 => classifyAct_tier3 h1 h2,
   fun _ h => classifyAct_hold h,
   classifyAct_tier1 (by norm_num),
   classifyAct_tier2 (by norm_num) (by norm_num)⟩

/-- C3 witness: one dip value inside each tier. -/
theorem C3_witness :
    classifyAct 12 = ("🟢 Deploy 100%", 100) ∧
    classifyAct 8 = ("🟡 Deploy 50%", 50) ∧
    classifyAct 5 = ("🟠 Deploy 25%", 25) ∧
    classifyAct 1 = ("⚪ Hold", 0) :=
  ⟨C3_theorem.1 12 (by norm_num),
   C3_theorem.2.1 8 (by norm_num) (by norm_num),
   C3_theorem.2.2.1 5 (by norm_num) (by norm_num),
   C3_theorem.2.2.2.1 1 (by norm_num)⟩

/-- C4, counterexample: the claim "batch orchestration skips silently every
failing instrument, aggregates the successful `DipResult`s into a list
preserving configuration order, and only when every instrument fails
surfaces a single no-results failure" is false as stated: under `fetchC4`
the S&P 500 instrument succeeds and is classified, yet `get_dip` returns no
list at all — the Nifty 50 frame extracts to a zero moving average and the
unguarded division raises `ZeroDivisionError` out of the loop, discarding
the already-aggregated row. -/
theorem C4_counterexample :
    stepOf fetchC4 ("S&P 500", "^GSPC") =
      .emit ⟨"S&P 500", "^GSPC", 1, 1, 0, "⚪ Hold", 0⟩ ∧
    ("S&P 500", "^GSPC") ∈ index_options ∧
    getDip fetchC4 = .error .zeroDivision :=
  ⟨by rw [stepC4_sp, mkRow_ones],
   by rw [index_options]; exact List.mem_cons_self _ _,
   getDip_C4⟩

/-- C4 (amended): provided no instrument's classification divides by zero
(no successful extraction has a zero moving average, i.e. no step raises),
`get_dip` is exactly: skip every instrument whose fetch fails, returns no
rows, or fails extraction; collect the emitted rows in configuration order;
and fail with the single "no results available" error iff no row was
emitted. -/
theorem C4_theorem (f : String → FetchResult)
    (H : ∀ p ∈ index_options, stepOf f p ≠ .raise) :
    getDip f =
      (if index_options.filterMap (fun p => emittedOf (stepOf f p)) = []
       then .error .noResults
       else .ok (index_options.filterMap (fun p => emittedOf (stepOf f p)))) := by
  rw [getDip, getDipLoop_eq f index_options [] H, List.nil_append]

set_option maxRecDepth 8000 in
/-- C4 witness: two of the six fetches fail (Midcap and NASDAQ), four
succeed — the result is exactly the four rows in configuration order. -/
theorem C4_witness :
    (∀ p ∈ index_options, stepOf fetch2of6 p ≠ .raise) ∧
    getDip fetch2of6 =
      .ok [⟨"S&P 500", "^GSPC", 1, 1, 0, "⚪ Hold", 0⟩,
           ⟨"Nifty 50", "^NSEI", 1, 1, 0, "⚪ Hold", 0⟩,
           ⟨"Nifty Smallcap 250", "0P0001Q0UH.BO", 1, 1, 0, "⚪ Hold", 0⟩,
           ⟨"BTC", "BTC-USD", 1, 1, 0, "⚪ Hold", 0⟩] := by
  refine ⟨steps2of6_noRaise, ?_⟩
  rw [C4_theorem fetch2of6 steps2of6_noRaise, index_options]
  simp only [List.filterMap_cons, List.filterMap_nil, step2of6_sp, step2of6_nifty,
    step2of6_mid, step2of6_small, step2of6_nasdaq, step2of6_btc, emittedOf,
    mkRow_ones]
  rw [if_neg (by simp)]

/-- C5, counterexample: the claim "the classifier has no failure modes for
every `ExtractedPoint` produced by a successful extraction, so per-instrument
failures never propagate past the orchestration boundary" is false: the
all-zeros frame extracts successfully to `(0, 0)`, and classifying it raises
`ZeroDivisionError`, which escapes `get_dip`. -/
theorem C5_counterexample :
    getLastCloseAndDma (some dataZeros) = .ok (0, 0) ∧
    getDip fetchZeros = .error .zeroDivision :=
  ⟨extract_zeros, getDip_zeros⟩

/-- C5 (amended): provided every successfully extracted point has a non-zero
`lastMovingAverage`, classification never raises, and `get_dip` absorbs all
per-instrument failures: it returns either the single no-results failure or
a list of rows. -/
theorem C5_theorem (f : String → FetchResult)
    (H : ∀ p ∈ index_options, ∀ d c m, f p.2 = .ok (some d) →
      getLastCloseAndDma (some d) = .ok (c, m) → m ≠ 0) :
    getDip f = .error .noResults ∨ ∃ rs, getDip f = .ok rs := by
  have Hnr : ∀ p ∈ index_options, stepOf f p ≠ .raise := by
    intro p hp hraise
    obtain ⟨d, c, hf, -, hex⟩ := stepOf_raise_inv hraise
    exact H p hp d c 0 hf hex rfl
  rw [getDip, getDipLoop_eq f index_options [] Hnr, List.nil_append]
  by_cases hnil : index_options.filterMap (fun p => emittedOf (stepOf f p)) = []
  · exact Or.inl (by rw [if_pos hnil])
  · exact Or.inr ⟨_, by rw [if_neg hnil]⟩

/-- C5 witness: the amended claim when every fetch fails. -/
theorem C5_witness :
    (∀ p ∈ index_options, ∀ d c m, fetchAllFail p.2 = .ok (some d) →
      getLastCloseAndDma (some d) = .ok (c, m) → m ≠ 0) ∧
    (getDip fetchAllFail = .error .noResults ∨
      ∃ rs, getDip fetchAllFail = .ok rs) := by
  have H : ∀ p ∈ index_options, ∀ d c m, fetchAllFail p.2 = .ok (some d) →
      getLastCloseAndDma (some d) = .ok (c, m) → m ≠ 0 := by
    intro p hp d c m hf hex
    simp [fetchAllFail] at hf
  exact ⟨H, C5_theorem fetchAllFail H⟩

/-- C6, counterexample: the claim "for every fixed `lastMovingAverage`,
decreasing `lastClose` never decreases `dipPercent` nor the deploy fraction"
is false when the moving average is negative: with `lastMovingAverage = -100`,
lowering the close from -90 to -95 drops the dip from 10% to 5% and the
deploy amount from 100 to 25. -/
theorem C6_counterexample :
    (-95 : ℚ) < -90 ∧
    dipOf (-95) (-100) < dipOf (-90) (-100) ∧
    (classifyAct (dipOf (-95) (-100))).2 < (classifyAct (dipOf (-90) (-100))).2 := by
  have h1 : dipOf (-95) (-100) = 5 := by rw [dipOf]; norm_num
  have h2 : dipOf (-90) (-100) = 10 := by rw [dipOf]; norm_num
  refine ⟨by norm_num, by rw [h1, h2]; norm_num, ?_⟩
  rw [h1, h2, classifyAct_tier3 (by norm_num) (by norm_num),
    classifyAct_tier1 (by norm_num)]
  norm_num

/-- C6 (amended): for every fixed positive `lastMovingAverage`, decreasing
`lastClose` never decreases `dipPercent` nor the deploy amount selected by
the ladder. -/
theorem C6_theorem (m c c2 : ℚ) (hm : 0 < m) (hc : c2 ≤ c) :
    dipOf c m ≤ dipOf c2 m ∧
    (classifyAct (dipOf c m)).2 ≤ (classifyAct (dipOf c2 m)).2 := by
  have hdip : dipOf c m ≤ dipOf c2 m := by
    rw [dipOf, dipOf]
    have h1 : (m - c) / m ≤ (m - c2) / m :=
      div_le_div_of_nonneg_right (by linarith) hm.le
    nlinarith
  exact ⟨hdip, classifyAct_mono hdip⟩

/-- C6 witness: the amended claim at `lastMovingAverage = 100`,
closes 95 and 90. -/
theorem C6_witness :
    (0 : ℚ) < 100 ∧ (90 : ℚ) ≤ 95 ∧
    (dipOf 95 100 ≤ dipOf 90 100 ∧
     (classifyAct (dipOf 95 100)).2 ≤ (classifyAct (dipOf 90 100)).2) :=
  ⟨by norm_num, by norm_num, C6_theorem 100 95 90 (by norm_num) (by norm_num)⟩

/-- C7: `dipPercent = (lastMovingAverage - lastClose) / lastMovingAverage
* 100`, and the concrete vectors hold: close 90 / average 100 gives a 10%
dip, "Deploy 100%" and a deploy amount of 100; close 99 / average 100 gives
a 1% dip, "Hold" and a deploy amount of 0. -/
theorem C7_theorem :
    (∀ c m : ℚ, dipOf c m = (m - c) / m * 100) ∧
    dipOf 90 100 = 10 ∧ dipOf 99 100 = 1 ∧
    mkRow "Index" "Ticker" 90 100 =
      ⟨"Index", "Ticker", 90, 100, 10, "🟢 Deploy 100%", 100⟩ ∧
    mkRow "Index" "Ticker" 99 100 =
      ⟨"Index", "Ticker", 99, 100, 1, "⚪ Hold", 0⟩ := by
  have h90 : dipOf 90 100 = 10 := by rw [dipOf]; norm_num
  have h99 : dipOf 99 100 = 1 := by rw [dipOf]; norm_num
  refine ⟨fun c m => rfl, h90, h99, ?_, ?_⟩
  · simp only [mkRow, h90, classifyAct_tier1 (show (10:ℚ) ≤ 10 by norm_num)]
    rw [show round2 90 = 90 by simpa using round2_intCast 90,
      show round2 100 = 100 by simpa using round2_intCast 100,
      show round2 10 = 10 by simpa using round2_intCast 10]
  · simp only [mkRow, h99, classifyAct_hold (show (1:ℚ) < 4 by norm_num)]
    rw [show round2 99 = 99 by simpa using round2_intCast 99,
      show round2 100 = 100 by simpa using round2_intCast 100,
      show round2 1 = 1 by simpa using round2_intCast 1,
      show round2 0 = 0 by simpa using round2_intCast 0]

/-- C8: every emitted row presents `lastClose`, `lastMovingAverage`,
`dipPercent` and `deployAmount` rounded to two decimals, while the action
(the tier comparison) is taken on the unrounded dip percentage. -/
theorem C8_theorem (f : String → FetchResult) (p : String × String) (r : DipRow)
    (h : stepOf f p = .emit r) :
    ∃ d c m, f p.2 = .ok (some d) ∧ getLastCloseAndDma (some d) = .ok (c, m) ∧
      r.currentPrice = round2 c ∧ r.dma200 = round2 m ∧
      r.dipPercent = round2 (dipOf c m) ∧
      r.action = (classifyAct (dipOf c m)).1 ∧
      r.deploy = round2 ((classifyAct (dipOf c m)).2) := by
  obtain ⟨d, c, m, hf, -, hex, -, rfl⟩ := stepOf_emit_inv h
  exact ⟨d, c, m, hf, hex, rfl, rfl, rfl, rfl, rfl⟩

/-- C8 witness: the emitted S&P 500 row under `fetchOnes`. -/
theorem C8_witness :
    stepOf fetchOnes ("S&P 500", "^GSPC") = .emit (mkRow "S&P 500" "^GSPC" 1 1) ∧
    ∃ d c m, fetchOnes ("S&P 500", "^GSPC").2 = .ok (some d) ∧
      getLastCloseAndDma (some d) = .ok (c, m) ∧
      (mkRow "S&P 500" "^GSPC" 1 1).currentPrice = round2 c ∧
      (mkRow "S&P 500" "^GSPC" 1 1).dma200 = round2 m ∧
      (mkRow "S&P 500" "^GSPC" 1 1).dipPercent = round2 (dipOf c m) ∧
      (mkRow "S&P 500" "^GSPC" 1 1).action = (classifyAct (dipOf c m)).1 ∧
      (mkRow "S&P 500" "^GSPC" 1 1).deploy = round2 ((classifyAct (dipOf c m)).2) :=
  ⟨stepOnes_sp,
   C8_theorem fetchOnes ("S&P 500", "^GSPC") (mkRow "S&P 500" "^GSPC" 1 1) stepOnes_sp⟩

/-- C9: whenever extraction returns `(lastClose, lastMovingAverage)`, each
value is drawn from the last row of its table (closes, respectively rolling
means) in which at least one value is non-missing, taking the first
non-missing value in column order. -/
theorem C9_theorem (d : PriceData) (c m : ℚ)
    (h : getLastCloseAndDma (some d) = .ok (c, m)) :
    (∃ i, isLastNonMissingRow d.cols d.nrows i ∧
        firstNonMissingInRow (rowAt d.cols i) c) ∧
    (∃ i, isLastNonMissingRow (dmaColsOf d) d.nrows i ∧
        firstNonMissingInRow (rowAt (dmaColsOf d) i) m) := by
  rw [getLastCloseAndDma] at h
  by_cases h0 : d.nrows = 0
  · rw [if_pos h0] at h; cases h
  · rw [if_neg h0] at h
    by_cases hc : d.hasClose = false
    · rw [if_pos hc] at h; cases h
    · rw [if_neg hc] at h
      cases hb1 : (lastValidIdx d.cols d.nrows).bind (firstSomeAt d.cols) with
      | none =>
        rw [hb1] at h
        cases hb2 : (lastValidIdx (dmaColsOf d) d.nrows).bind
            (firstSomeAt (dmaColsOf d)) with
        | none => rw [hb2] at h; cases h
        | some m0 => rw [hb2] at h; cases h
      | some c0 =>
        rw [hb1] at h
        cases hb2 : (lastValidIdx (dmaColsOf d) d.nrows).bind
            (firstSomeAt (dmaColsOf d)) with
        | none => rw [hb2] at h; cases h
        | some m0 =>
          rw [hb2] at h
          injection h with h
          have hcc : c0 = c := congrArg Prod.fst h
          have hmm2 : m0 = m := congrArg Prod.snd h
          subst hcc
          subst hmm2
          obtain ⟨i1, hidx1, hfs1⟩ := Option.bind_eq_some.mp hb1
          obtain ⟨i2, hidx2, hfs2⟩ := Option.bind_eq_some.mp hb2
          exact ⟨⟨i1, lastValidIdx_spec hidx1, findSome?_id_eq_some hfs1⟩,
                 ⟨i2, lastValidIdx_spec hidx2, findSome?_id_eq_some hfs2⟩⟩

/-- C9 witness: the all-ones frame, whose extraction returns `(1, 1)`. -/
theorem C9_witness :
    getLastCloseAndDma (some data200ones) = .ok (1, 1) ∧
    ((∃ i, isLastNonMissingRow data200ones.cols data200ones.nrows i ∧
        firstNonMissingInRow (rowAt data200ones.cols i) 1) ∧
     (∃ i, isLastNonMissingRow (dmaColsOf data200ones) data200ones.nrows i ∧
        firstNonMissingInRow (rowAt (dmaColsOf data200ones) i) 1)) :=
  ⟨extract_ones, C9_theorem data200ones 1 1 extract_ones⟩

/-- C10: every emitted row carries a deploy amount that is exactly one of
100, 50, 25 or 0, paired with the matching action label; in particular the
deployed amount never exceeds the fixed capital amount 100. -/
theorem C10_theorem (f : String → FetchResult) (p : String × String) (r : DipRow)
    (h : stepOf f p = .emit r) :
    ((r.deploy = 100 ∧ r.action = "🟢 Deploy 100%") ∨
     (r.deploy = 50 ∧ r.action = "🟡 Deploy 50%") ∨
     (r.deploy = 25 ∧ r.action = "🟠 Deploy 25%") ∨
     (r.deploy = 0 ∧ r.action = "⚪ Hold")) ∧
    r.deploy ≤ 100 := by
  obtain ⟨d, c, m, -, -, -, -, rfl⟩ := stepOf_emit_inv h
  have r100 : round2 100 = 100 := by simpa using round2_intCast 100
  have r50 : round2 50 = 50 := by simpa using round2_intCast 50
  have r25 : round2 25 = 25 := by simpa using round2_intCast 25
  have r0 : round2 0 = 0 := by simpa using round2_intCast 0
  have hdeploy : (mkRow p.1 p.2 c m).deploy =
      round2 ((classifyAct (dipOf c m)).2) := rfl
  have haction : (mkRow p.1 p.2 c m).action = (classifyAct (dipOf c m)).1 := rfl
  rcases le_or_lt 10 (dipOf c m) with h1 | h1
  · refine ⟨Or.inl ⟨?_, ?_⟩, ?_⟩
    · rw [hdeploy, classifyAct_tier1 h1]; exact r100
    · rw [haction, classifyAct_tier1 h1]
    · rw [hdeploy, classifyAct_tier1 h1]; exact le_of_eq r100
  · rcases le_or_lt 7 (dipOf c m) with h2 | h2
    · refine ⟨Or.inr (Or.inl ⟨?_, ?_⟩), ?_⟩
      · rw [hdeploy, classifyAct_tier2 h2 h1]; exact r50
      · rw [haction, classifyAct_tier2 h2 h1]
      · rw [hdeploy, classifyAct_tier2 h2 h1]
        exact le_trans (le_of_eq r50) (by norm_num)
    · rcases le_or_lt 4 (dipOf c m) with h3 | h3
      · refine ⟨Or.inr (Or.inr (Or.inl ⟨?_, ?_⟩)), ?_⟩
        · rw [hdeploy, classifyAct_tier3 h3 h2]; exact r25
        · rw [haction, classifyAct_tier3 h3 h2]
        · rw [hdeploy, classifyAct_tier3 h3 h2]
          exact le_trans (le_of_eq r25) (by norm_num)
      · refine ⟨Or.inr (Or.inr (Or.inr ⟨?_, ?_⟩)), ?_⟩
        · rw [hdeploy, classifyAct_hold h3]; exact r0
        · rw [haction, classifyAct_hold h3]
        · rw [hdeploy, classifyAct_hold h3]
          exact le_trans (le_of_eq r0) (by norm_num)

/-- C10 witness: the emitted S&P 500 row under `fetch25` (a 5% dip, tier 3). -/
theorem C10_witness :
    stepOf fetch25 ("S&P 500", "^GSPC") = .emit (mkRow "S&P 500" "^GSPC" 95 100) ∧
    ((((mkRow "S&P 500" "^GSPC" 95 100).deploy = 100 ∧
        (mkRow "S&P 500" "^GSPC" 95 100).action = "🟢 Deploy 100%") ∨
      ((mkRow "S&P 500" "^GSPC" 95 100).deploy = 50 ∧
        (mkRow "S&P 500" "^GSPC" 95 100).action = "🟡 Deploy 50%") ∨
      ((mkRow "S&P 500" "^GSPC" 95 100).deploy = 25 ∧
        (mkRow "S&P 500" "^GSPC" 95 100).action = "🟠 Deploy 25%") ∨
      ((mkRow "S&P 500" "^GSPC" 95 100).deploy = 0 ∧
        (mkRow "S&P 500" "^GSPC" 95 100).action = "⚪ Hold")) ∧
     (mkRow "S&P 500" "^GSPC" 95 100).deploy ≤ 100) :=
  ⟨step25_sp,
   C10_theorem fetch25 ("S&P 500", "^GSPC") (mkRow "S&P 500" "^GSPC" 95 100) step25_sp⟩

end StockMA
